import Mathlib

/-!
Shallow embedding of the Govee MCP command-dispatch gateway
(`src/adapters/cloud.ts`, `src/adapters/lan.ts`, `src/util/types.ts`,
`src/util/limiter.ts`, and the `McpServer.registerTool` handlers of the
server entry point).  JavaScript numbers are modelled as `ℚ`; machine
integers produced by JS bitwise operators are modelled as `Int` with the
explicit 32-bit wrap that `ToInt32` performs.  Handlers are modelled as
pure functions returning an `Except` result together with the list of
observable effects (rate-limiter admissions and network requests) they
perform, in order.
-/

/-- The two values of the TS `"on" | "off"` union used by the `turn` command
and the decoded `power` state field. -/
inductive Power where
  | on
  | off
deriving DecidableEq, Repr

/-- An `{r, g, b}` record of JS numbers (`src/util/types.ts`). -/
structure Rgb where
  r : ℚ
  g : ℚ
  b : ℚ
deriving DecidableEq, Repr

/-- `ControlCmd` tagged union from `src/util/types.ts`. -/
inductive ControlCmd where
  | turn (value : Power)
  | brightness (value : ℚ)
  | color (value : Rgb)
  | colorTem (value : ℚ)
  | scene (value : String)
deriving DecidableEq, Repr

/-- The `cmd.name` discriminant string of a `ControlCmd` value. -/
def ControlCmd.cmdName : ControlCmd → String
  | .turn _ => "turn"
  | .brightness _ => "brightness"
  | .color _ => "color"
  | .colorTem _ => "colorTem"
  | .scene _ => "scene"

/-- `DeviceRef` from `src/util/types.ts`. -/
structure DeviceRef where
  deviceId : String
  model : String
deriving DecidableEq, Repr

/-- `BatchItem = DeviceRef & { cmd: ControlCmd }` from `src/util/types.ts`. -/
structure BatchItem where
  deviceId : String
  model : String
  cmd : ControlCmd
deriving DecidableEq, Repr

/-- The value field of a vendor capability envelope: a JS number or string. -/
inductive CapValue where
  | num (q : ℚ)
  | str (s : String)
deriving DecidableEq, Repr

/-- A vendor capability envelope `{type, instance, value}`; the field
`instance` is a Lean keyword, so it is called `inst` here. -/
structure Capability where
  type : String
  inst : String
  value : CapValue
deriving DecidableEq, Repr

/-- The partial `State` record from `src/util/types.ts`; absent fields are
`none`. -/
structure State where
  power : Option Power := none
  brightness : Option ℚ := none
  color : Option Rgb := none
  colorTem : Option ℚ := none
  scene : Option String := none
deriving DecidableEq, Repr

/-- A capability entry of the raw `GET /user/devices` response (only the
`type` field is consumed by `CloudAdapter.listDevices`). -/
structure RawDeviceCap where
  type : String
deriving DecidableEq, Repr

/-- A raw device record of the `GET /user/devices` response. -/
structure RawDevice where
  device : String
  sku : String
  deviceName : String
  capabilities : List RawDeviceCap
deriving DecidableEq, Repr

/-- `DeviceInfo` from `src/util/types.ts`. -/
structure DeviceInfo where
  deviceId : String
  model : String
  deviceName : String
  capabilities : List String
deriving DecidableEq, Repr

/-- Process configuration consumed by the gateway: the parsed
`GOVEE_ALLOWLIST` identifiers, the `GOVEE_DRY_RUN` flag and the
`GOVEE_LAN_ENABLED` flag. -/
structure Config where
  allowlist : List String
  dryRun : Bool
  lanEnabled : Bool
deriving DecidableEq, Repr

/-- The environment a run interacts with: the decoded `data` array of
`GET /user/devices`, the decoded `data.capabilities` array of
`POST /device/state`, and the HTTP status the vendor returns to requests. -/
structure World where
  devicesResp : List RawDevice
  stateResp : List Capability
  status : Nat
deriving DecidableEq, Repr

/-- Observable effects of a gateway call, in order: one rate-limiter
admission (`limiter.take()`), the device-list GET, the state POST, or a
control POST carrying the encoded capability envelope. -/
inductive Eff where
  | takeToken
  | devicesGet
  | statePost (ref : DeviceRef)
  | controlPost (ref : DeviceRef) (cap : Capability)
deriving DecidableEq, Repr

/-- Error taxonomy of the gateway.  Each constructor corresponds to one
`throw new Error(...)` site (or, for `validation`, to the zod input-schema
rejection that the MCP server performs before invoking a tool handler). -/
inductive GoveeError where
  | validation
  | deviceNotAllowed
  | noAllowedItems
  | upstream (status : Nat)
  | lanDisabled
  | lanGetStateUnimplemented
  | lanControlUnimplemented
deriving DecidableEq, Repr

/-- The message of each error, as built by the source. -/
def GoveeError.message : GoveeError → String
  | .validation => "Invalid arguments"
  | .deviceNotAllowed => "Device not allowed"
  | .noAllowedItems => "No allowed items"
  | .upstream status => "Govee API error " ++ toString status ++ ": Request failed"
  | .lanDisabled => "LAN disabled"
  | .lanGetStateUnimplemented => "LAN getState not implemented"
  | .lanControlUnimplemented => "LAN control not implemented"

/-- An HTTP response as seen by the `post`/`get` helpers of
`src/adapters/cloud.ts`: a status code and a body text. -/
structure HttpResponse where
  status : Nat
  body : String
deriving DecidableEq, Repr

/-- `res.ok` of fetch: status in the inclusive range 200–299. -/
def httpOk (status : Nat) : Bool := decide (200 ≤ status ∧ status < 300)

/-- Outcome of the `post` helper of `src/adapters/cloud.ts` on a response:
on a non-ok response it reads the body text (unused) and throws
`Govee API error ${res.status}: Request failed`; the parsed JSON payload of
the ok case is supplied separately by `World`, so the outcome is `Unit`. -/
def CloudAdapter.post (res : HttpResponse) : Except GoveeError Unit :=
  if httpOk res.status then .ok () else .error (.upstream res.status)

/-- Outcome of the `get` helper of `src/adapters/cloud.ts` on a response;
identical status handling to `post` (it does not read the body on error). -/
def CloudAdapter.get (res : HttpResponse) : Except GoveeError Unit :=
  if httpOk res.status then .ok () else .error (.upstream res.status)

/-- JS `ToInt32` coercion applied by the bitwise operators: truncate the
number toward zero, then wrap into the signed 32-bit range. -/
def toInt32 (q : ℚ) : Int :=
  ((if 0 ≤ q then ⌊q⌋ else ⌈q⌉) + 2 ^ 31) % 2 ^ 32 - 2 ^ 31

/-- Reinterpret a 32-bit unsigned pattern as a signed 32-bit integer. -/
def ofBits32 (u : Nat) : Int :=
  let v : Nat := u % 2 ^ 32
  if v < 2 ^ 31 then (v : Int) else (v : Int) - 2 ^ 32

/-- The unsigned 32-bit pattern of a signed 32-bit integer. -/
def bits32 (x : Int) : Nat := (x % 2 ^ 32).toNat

/-- JS `x << n` on an int32 value: shift the bit pattern, wrap to 32 bits. -/
def jsShl32 (x : Int) (n : Nat) : Int := ofBits32 (bits32 x <<< n)

/-- JS `x | y` on int32 values: bitwise or of the 32-bit patterns. -/
def jsOr32 (x y : Int) : Int := ofBits32 (bits32 x ||| bits32 y)

/-- JS `x >> n` (sign-propagating shift) on an int32 value, which equals
floor division by `2 ^ n`; the divisor is positive, so `Int.ediv` is floor
division here. -/
def jsShr32 (x : Int) (n : Nat) : Int := x / 2 ^ n

/-- JS `x & 255` on an int32 value: the low 8 bits of the two's-complement
pattern, i.e. the nonnegative remainder modulo 256. -/
def jsAnd255 (x : Int) : Int := x % 256

/-- `(cmd.value.r << 16) | (cmd.value.g << 8) | cmd.value.b` from
`CloudAdapter.control`, with each JS bitwise operator coercing via
`ToInt32`. -/
def packRgb (c : Rgb) : Int :=
  jsOr32 (jsOr32 (jsShl32 (toInt32 c.r) 16) (jsShl32 (toInt32 c.g) 8)) (toInt32 c.b)

/-- `Math.round`: round to the nearest integer, halves toward `+∞`. -/
def jsRound (q : ℚ) : Int := ⌊q + 1 / 2⌋

/-- `Number(x)` as used by `CloudAdapter.getState` on capability state
values.  On a non-numeric string JS would produce `NaN`, which `ℚ` cannot
represent; no decoded path of this development feeds a string here. -/
def jsToNumber : CapValue → ℚ
  | .num q => q
  | .str _ => 0

/-- The `switch (cmd.name)` of `CloudAdapter.control`: encode a
`ControlCmd` into the vendor capability envelope. -/
def encodeCapability : ControlCmd → Capability
  | .turn v =>
    { type := "devices.capabilities.on_off", inst := "powerSwitch",
      value := .num (if v = .on then 1 else 0) }
  | .brightness v =>
    { type := "devices.capabilities.range", inst := "brightness",
      value := .num v }
  | .color c =>
    { type := "devices.capabilities.color_setting", inst := "colorRgb",
      value := .num ((packRgb c : Int) : ℚ) }
  | .colorTem v =>
    { type := "devices.capabilities.color_setting", inst := "colorTemperatureK",
      value := .num v }
  | .scene s =>
    { type := "devices.capabilities.dynamic_scene", inst := "lightScene",
      value := .str s }

/-- The body of the `for (const c of caps)` loop of `CloudAdapter.getState`:
four independent `if` statements, each matching on `type` (and, except for
`on_off`, on `instance`) and overwriting the corresponding `State` field. -/
def applyCap (st : State) (c : Capability) : State :=
  let st :=
    if c.type = "devices.capabilities.on_off" then
      { st with power := some (if c.value = .num 1 then Power.on else Power.off) }
    else st
  let st :=
    if c.type = "devices.capabilities.range" ∧ c.inst = "brightness" then
      { st with brightness := some (jsToNumber c.value) }
    else st
  let st :=
    if c.type = "devices.capabilities.color_setting" ∧ c.inst = "colorRgb" then
      let rgb := toInt32 (jsToNumber c.value)
      { st with color := some { r := (jsAnd255 (jsShr32 rgb 16) : ℚ),
                                g := (jsAnd255 (jsShr32 rgb 8) : ℚ),
                                b := (jsAnd255 rgb : ℚ) } }
    else st
  let st :=
    if c.type = "devices.capabilities.color_setting" ∧ c.inst = "colorTemperatureK" then
      { st with colorTem := some (jsToNumber c.value) }
    else st
  st

/-- `CloudAdapter.getState` response parsing: fold the capability array
over an initially empty `State`. -/
def decodeState (caps : List Capability) : State := caps.foldl applyCap {}

/-- `CloudAdapter.listDevices`: map the raw `data` array to `DeviceInfo`
records (`d.device`, `d.sku`, `d.deviceName`, capability types). -/
def CloudAdapter.listDevices (w : World) : List DeviceInfo :=
  w.devicesResp.map fun d =>
    { deviceId := d.device, model := d.sku, deviceName := d.deviceName,
      capabilities := d.capabilities.map (·.type) }

/-- `CloudAdapter.getState`: POST `/device/state`, then decode the
capability array of the response.  The request is issued either way; a
non-ok status raises the upstream error of `post`. -/
def CloudAdapter.getState (w : World) (ref : DeviceRef) :
    Except GoveeError State × List Eff :=
  (if httpOk w.status then .ok (decodeState w.stateResp)
   else .error (.upstream w.status),
   [.statePost ref])

/-- `CloudAdapter.control`: when the process-wide dry-run flag is set,
return immediately with no network interaction; otherwise encode the
command and POST `/device/control`. -/
def CloudAdapter.control (w : World) (cfg : Config) (ref : DeviceRef)
    (cmd : ControlCmd) : Except GoveeError Unit × List Eff :=
  if cfg.dryRun then (.ok (), [])
  else
    (if httpOk w.status then .ok () else .error (.upstream w.status),
     [.controlPost ref (encodeCapability cmd)])

/-- `LanAdapter.getState`: always throws "LAN getState not implemented". -/
def LanAdapter.getState (_ref : DeviceRef) : Except GoveeError State × List Eff :=
  (.error .lanGetStateUnimplemented, [])

/-- `LanAdapter.control`: throws "LAN disabled" when the LAN flag is off,
otherwise "LAN control not implemented"; never reaches the network. -/
def LanAdapter.control (cfg : Config) (_ref : DeviceRef) (_cmd : ControlCmd) :
    Except GoveeError Unit × List Eff :=
  if cfg.lanEnabled then (.error .lanControlUnimplemented, [])
  else (.error .lanDisabled, [])

/-- The two backends the router chooses between. -/
inductive AdapterKind where
  | cloud
  | lan
deriving DecidableEq, Repr

/-- `pickAdapter(deviceId)`: returns the LAN adapter exactly when the LAN
flag is globally enabled, ignoring its `deviceId` argument. -/
def pickAdapter (cfg : Config) (_deviceId : String) : AdapterKind :=
  if cfg.lanEnabled then .lan else .cloud

/-- `ad.control` dispatched on the selected adapter. -/
def adapterControl (a : AdapterKind) (w : World) (cfg : Config)
    (ref : DeviceRef) (cmd : ControlCmd) : Except GoveeError Unit × List Eff :=
  match a with
  | .cloud => CloudAdapter.control w cfg ref cmd
  | .lan => LanAdapter.control cfg ref cmd

/-- `ad.getState` dispatched on the selected adapter. -/
def adapterGetState (a : AdapterKind) (w : World) (ref : DeviceRef) :
    Except GoveeError State × List Eff :=
  match a with
  | .cloud => CloudAdapter.getState w ref
  | .lan => LanAdapter.getState ref

/-- Sequential `for (const it of items) await ad.control(...)`: stop at the
first thrown error, concatenating the effect traces. -/
def runControls (w : World) (cfg : Config) (a : AdapterKind) :
    List BatchItem → Except GoveeError Unit × List Eff
  | [] => (.ok (), [])
  | it :: rest =>
    let r := adapterControl a w cfg { deviceId := it.deviceId, model := it.model } it.cmd
    match r.1 with
    | .error e => (.error e, r.2)
    | .ok _ =>
      let r2 := runControls w cfg a rest
      (r2.1, r.2 ++ r2.2)

/-- `CloudAdapter.batch`: dry-run short-circuits before any iteration;
otherwise sequence `this.control` over the items (the 60 ms spacing delay
has no observable effect in this model). -/
def CloudAdapter.batch (w : World) (cfg : Config) (items : List BatchItem) :
    Except GoveeError Unit × List Eff :=
  if cfg.dryRun then (.ok (), [])
  else runControls w cfg .cloud items

/-- `isAllowed(deviceId)`: an empty allowlist admits every device,
otherwise membership decides. -/
def isAllowed (allowlist : List String) (deviceId : String) : Bool :=
  allowlist.isEmpty || allowlist.contains deviceId

/-- JS `Map.set` on a map represented as an insertion-ordered association
list: an existing key keeps its position and has its value replaced; a new
key is appended. -/
def mapSet {κ α : Type} [DecidableEq κ] (m : List (κ × α)) (k : κ) (v : α) :
    List (κ × α) :=
  if m.any (fun p => p.1 = k) then
    m.map (fun p => if p.1 = k then (p.1, v) else p)
  else m ++ [(k, v)]

/-- The composite batch key `${deviceId}:${model}:${cmd.name}`. -/
def batchKey (it : BatchItem) : String :=
  it.deviceId ++ ":" ++ it.model ++ ":" ++ it.cmd.cmdName

/-- The coalescing step of the batch handler: insert every allowed item
into a `Map` keyed by `batchKey` and read the values back in map order. -/
def coalesce (items : List BatchItem) : List BatchItem :=
  (items.foldl (fun m it => mapSet m (batchKey it) it) []).map (·.2)

/-- `Map.set`-style grouping with per-key accumulation, modelling the
`byDevice` map of the batch handler: `arr.push(it)` appends to the group
of an existing key; a new key is appended with a singleton group. -/
def upsertGroup (m : List (String × List BatchItem)) (k : String)
    (it : BatchItem) : List (String × List BatchItem) :=
  if m.any (fun p => p.1 = k) then
    m.map (fun p => if p.1 = k then (p.1, p.2 ++ [it]) else p)
  else m ++ [(k, [it])]

/-- Build the `byDevice` map of the batch handler from the deduplicated
items. -/
def groupByDevice (deduped : List BatchItem) : List (String × List BatchItem) :=
  deduped.foldl (fun m it => upsertGroup m it.deviceId it) []

/-- Run the per-device groups of the batch handler.  In the source each
group is an async task joined by `Promise.all`; groups are replayed here in
map order, one after the other, which fixes one admissible interleaving of
the cooperative scheduler.  Each group picks its adapter via `pickAdapter`
and replays its commands in retained order. -/
def runGroups (w : World) (cfg : Config) :
    List (String × List BatchItem) → Except GoveeError Unit × List Eff
  | [] => (.ok (), [])
  | (deviceId, cmds) :: rest =>
    let r := runControls w cfg (pickAdapter cfg deviceId) cmds
    match r.1 with
    | .error e => (.error e, r.2)
    | .ok _ =>
      let r2 := runGroups w cfg rest
      (r2.1, r.2 ++ r2.2)

/-- Range admissibility of a batch item command, as enforced by the zod
`inputSchema` of `govee_batch` before the handler runs: brightness 0–100,
color components 0–255 each, colorTem 1000–10000; `turn` and `scene` carry
no numeric range. -/
def cmdValid : ControlCmd → Bool
  | .turn _ => true
  | .brightness v => decide (0 ≤ v ∧ v ≤ 100)
  | .color c => decide (0 ≤ c.r ∧ c.r ≤ 255 ∧ 0 ≤ c.g ∧ c.g ≤ 255 ∧ 0 ≤ c.b ∧ c.b ≤ 255)
  | .colorTem v => decide (1000 ≤ v ∧ v ≤ 10000)
  | .scene _ => true

/-- The zod `inputSchema` of `govee_batch`: a non-empty item array whose
commands are all range-valid. -/
def batchInputValid (items : List BatchItem) : Bool :=
  !items.isEmpty && items.all (fun it => cmdValid it.cmd)

/-- `govee_list_devices`: one admission, then `cloud.listDevices()`
(always the Cloud backend, not `pickAdapter`), then the allowlist filter on
the result. -/
def govee_list_devices (w : World) (cfg : Config) :
    Except GoveeError (List DeviceInfo) × List Eff :=
  (if httpOk w.status then
    .ok ((CloudAdapter.listDevices w).filter fun d => isAllowed cfg.allowlist d.deviceId)
   else .error (.upstream w.status),
   [.takeToken, .devicesGet])

/-- `govee_get_state`: allowlist precondition, one admission, route via
`pickAdapter`, then `ad.getState`. -/
def govee_get_state (w : World) (cfg : Config) (deviceId model : String) :
    Except GoveeError State × List Eff :=
  if ¬ isAllowed cfg.allowlist deviceId then (.error .deviceNotAllowed, [])
  else
    let r := adapterGetState (pickAdapter cfg deviceId) w { deviceId, model }
    (r.1, .takeToken :: r.2)

/-- `govee_set_power`: allowlist precondition, one admission, route, then
`ad.control` with the `turn` command; success echoes the direction. -/
def govee_set_power (w : World) (cfg : Config) (deviceId model : String)
    (powerOn : Bool) : Except GoveeError String × List Eff :=
  if ¬ isAllowed cfg.allowlist deviceId then (.error .deviceNotAllowed, [])
  else
    let r := adapterControl (pickAdapter cfg deviceId) w cfg { deviceId, model }
      (.turn (if powerOn then .on else .off))
    match r.1 with
    | .error e => (.error e, .takeToken :: r.2)
    | .ok _ =>
      (.ok ("Power " ++ (if powerOn then "on" else "off") ++ " sent."), .takeToken :: r.2)

/-- `govee_set_brightness`: the zod schema bound `min(0).max(100)` is
checked before the handler body runs; then allowlist, admission, routing,
and `ad.control` with `Math.round(percent)`; success echoes the rounded
value. -/
def govee_set_brightness (w : World) (cfg : Config) (deviceId model : String)
    (percent : ℚ) : Except GoveeError String × List Eff :=
  if ¬ (0 ≤ percent ∧ percent ≤ 100) then (.error .validation, [])
  else if ¬ isAllowed cfg.allowlist deviceId then (.error .deviceNotAllowed, [])
  else
    let r := adapterControl (pickAdapter cfg deviceId) w cfg { deviceId, model }
      (.brightness ((jsRound percent : Int) : ℚ))
    match r.1 with
    | .error e => (.error e, .takeToken :: r.2)
    | .ok _ =>
      (.ok ("Brightness set to " ++ toString (jsRound percent) ++ "%."),
       .takeToken :: r.2)

/-- String interpolation of a JS number that is known from context to be
written as zod admitted it; an integral value prints with no decimal
point.  Non-integral rationals print here in `num/den` form, which differs
from JS float formatting; no claim depends on that case. -/
def jsNumToString (q : ℚ) : String :=
  if q.den = 1 then toString q.num else toString q

/-- `govee_set_color`: zod bounds `0–255` on each component checked before
the handler body; the components are passed through unrounded. -/
def govee_set_color (w : World) (cfg : Config) (deviceId model : String)
    (r g b : ℚ) : Except GoveeError String × List Eff :=
  if ¬ (0 ≤ r ∧ r ≤ 255 ∧ 0 ≤ g ∧ g ≤ 255 ∧ 0 ≤ b ∧ b ≤ 255) then
    (.error .validation, [])
  else if ¬ isAllowed cfg.allowlist deviceId then (.error .deviceNotAllowed, [])
  else
    let res := adapterControl (pickAdapter cfg deviceId) w cfg { deviceId, model }
      (.color { r, g, b })
    match res.1 with
    | .error e => (.error e, .takeToken :: res.2)
    | .ok _ =>
      (.ok ("Color set to rgb(" ++ jsNumToString r ++ "," ++ jsNumToString g ++
            "," ++ jsNumToString b ++ ")."),
       .takeToken :: res.2)

/-- `govee_set_color_temp`: zod bounds `1000–10000` checked before the
handler body; then allowlist, admission, routing, and `ad.control` with
`Math.round(kelvin)`; success echoes the rounded value. -/
def govee_set_color_temp (w : World) (cfg : Config) (deviceId model : String)
    (kelvin : ℚ) : Except GoveeError String × List Eff :=
  if ¬ (1000 ≤ kelvin ∧ kelvin ≤ 10000) then (.error .validation, [])
  else if ¬ isAllowed cfg.allowlist deviceId then (.error .deviceNotAllowed, [])
  else
    let r := adapterControl (pickAdapter cfg deviceId) w cfg { deviceId, model }
      (.colorTem ((jsRound kelvin : Int) : ℚ))
    match r.1 with
    | .error e => (.error e, .takeToken :: r.2)
    | .ok _ =>
      (.ok ("Color temp set to " ++ toString (jsRound kelvin) ++ "K."),
       .takeToken :: r.2)

/-- `govee_set_scene`: allowlist precondition, admission, routing,
`ad.control` with the `scene` command. -/
def govee_set_scene (w : World) (cfg : Config) (deviceId model scene : String) :
    Except GoveeError String × List Eff :=
  if ¬ isAllowed cfg.allowlist deviceId then (.error .deviceNotAllowed, [])
  else
    let r := adapterControl (pickAdapter cfg deviceId) w cfg { deviceId, model }
      (.scene scene)
    match r.1 with
    | .error e => (.error e, .takeToken :: r.2)
    | .ok _ => (.ok ("Scene set to " ++ scene ++ "."), .takeToken :: r.2)

/-- `govee_batch`: zod input validation, allowlist filter (the whole batch
fails when nothing survives), coalescing, exactly one admission, device
grouping, then the per-device group runs; success reports the surviving
command count and the device count. -/
def govee_batch (w : World) (cfg : Config) (items : List BatchItem) :
    Except GoveeError String × List Eff :=
  if ¬ batchInputValid items then (.error .validation, [])
  else
    let allowed := items.filter fun i => isAllowed cfg.allowlist i.deviceId
    if allowed.length = 0 then (.error .noAllowedItems, [])
    else
      let deduped := coalesce allowed
      let byDevice := groupByDevice deduped
      let r := runGroups w cfg byDevice
      match r.1 with
      | .error e => (.error e, .takeToken :: r.2)
      | .ok _ =>
        (.ok ("Applied " ++ toString deduped.length ++ " command(s) across " ++
              toString byDevice.length ++ " device(s)."),
         .takeToken :: r.2)

/-- `TokenBucketLimiter` state (`src/util/limiter.ts`).  The wall-clock
field `last` is abstracted: each `take()` loop iteration receives the
nonnegative elapsed seconds it observes. -/
structure TokenBucketLimiter where
  capacity : ℚ
  tokens : ℚ
  refillRatePerSec : ℚ
deriving DecidableEq, Repr

/-- The constructor: `capacity = Math.max(1, rps)`, tokens start full,
refill rate is `rps`. -/
def TokenBucketLimiter.init (rps : ℚ) : TokenBucketLimiter :=
  { capacity := max 1 rps, tokens := max 1 rps, refillRatePerSec := rps }

/-- One iteration of the `while (true)` loop of `take()`: lazily refill
`tokens = min(capacity, tokens + elapsed * refillRatePerSec)`, then consume
one token and return `true` if at least one is available, else keep the
refilled level and report `false` (the source then sleeps 50 ms and
retries). -/
def TokenBucketLimiter.takeStep (b : TokenBucketLimiter) (elapsed : ℚ) :
    TokenBucketLimiter × Bool :=
  let t := min b.capacity (b.tokens + elapsed * b.refillRatePerSec)
  if 1 ≤ t then ({ b with tokens := t - 1 }, true)
  else ({ b with tokens := t }, false)

/-- The bucket invariant: capacity at least one and a token level between
zero and capacity. -/
def TokenBucketLimiter.Inv (b : TokenBucketLimiter) : Prop :=
  1 ≤ b.capacity ∧ 0 ≤ b.tokens ∧ b.tokens ≤ b.capacity

/-- Modelled from the spec: the distinct keys of a list in order of first
appearance ("the remaining relative order of first appearance among
distinct keys"). -/
def keysInFirstOrder {κ : Type} [DecidableEq κ] : List κ → List κ
  | [] => []
  | k :: ks => k :: (keysInFirstOrder ks).filter (fun k2 => ¬ k2 = k)

/-- Modelled from the spec: the last occurrence among `items` of a given
key ("keep only the last occurrence of each key"). -/
def lastWithKey {κ α : Type} [DecidableEq κ] (key : α → κ) (items : List α)
    (k : κ) : Option α :=
  (items.filter fun it => key it = k).getLast?

/-- Modelled from the spec: deduplication that keeps, for each key, the
last occurrence, ordered by first appearance of the distinct keys. -/
def specDedup {κ α : Type} [DecidableEq κ] (key : α → κ) (items : List α) :
    List α :=
  (keysInFirstOrder (items.map key)).filterMap (lastWithKey key items)

/-- The composite key of the claim, read literally as the triple
`(deviceId, model, cmd.kind)`. -/
def tripleKey (it : BatchItem) : String × String × String :=
  (it.deviceId, it.model, it.cmd.cmdName)

/-- Value update applied to an existing map entry by a later sequence of
`Map.set` calls: the entry keeps its key and takes the last value inserted
for that key, if any. -/
def updEntry {κ α : Type} [DecidableEq κ] (key : α → κ) (items : List α)
    (p : κ × α) : κ × α :=
  match lastWithKey key items p.1 with
  | some v => (p.1, v)
  | none => p

/-- Entries appended to a map by a sequence of `Map.set` calls for keys not
already present: fresh keys in first-appearance order, each carrying its
last inserted value. -/
def newEntries {κ α : Type} [DecidableEq κ] (key : α → κ)
    (m : List (κ × α)) (items : List α) : List (κ × α) :=
  ((keysInFirstOrder (items.map key)).filter fun k =>
      ¬ m.any fun p => p.1 = k).filterMap
    fun k => (lastWithKey key items k).map fun v => (k, v)

theorem lastWithKey_nil {κ α : Type} [DecidableEq κ] (key : α → κ) (k : κ) :
    lastWithKey key ([] : List α) k = none := rfl

theorem lastWithKey_cons_ne {κ α : Type} [DecidableEq κ] (key : α → κ)
    (it : α) (rest : List α) (k : κ) (h : ¬ key it = k) :
    lastWithKey key (it :: rest) k = lastWithKey key rest k := by
  simp [lastWithKey, List.filter_cons, h]

theorem lastWithKey_cons_self {κ α : Type} [DecidableEq κ] (key : α → κ)
    (it : α) (rest : List α) :
    lastWithKey key (it :: rest) (key it)
      = some ((lastWithKey key rest (key it)).getD it) := by
  simp [lastWithKey, List.filter_cons, List.getLast?_cons]

theorem updEntry_fst {κ α : Type} [DecidableEq κ] (key : α → κ)
    (items : List α) (p : κ × α) : (updEntry key items p).1 = p.1 := by
  unfold updEntry
  cases lastWithKey key items p.1 <;> rfl

/-- A sequence of `Map.set` insertions, starting from map `m`, yields the
entries of `m` (keys and order kept, values updated to the last insertion
for that key) followed by the fresh keys in first-appearance order, each
with its last inserted value. -/
theorem foldl_mapSet_char {κ α : Type} [DecidableEq κ] (key : α → κ) :
    ∀ (items : List α) (m : List (κ × α)),
    items.foldl (fun acc it => mapSet acc (key it) it) m
      = m.map (updEntry key items) ++ newEntries key m items := by
  intro items
  induction items with
  | nil =>
    intro m
    have hupd : ∀ p : κ × α, updEntry key [] p = p := fun p => rfl
    have hmap : List.map (updEntry key []) m = m := by
      rw [List.map_congr_left fun p _ => hupd p]
      exact m.map_id'
    simp [newEntries, keysInFirstOrder, hmap]
  | cons it rest ih =>
    intro m
    rw [List.foldl_cons]
    by_cases hmem : (m.any fun p => p.1 = key it) = true
    · have hset : mapSet m (key it) it
          = m.map fun p => if p.1 = key it then (p.1, it) else p := by
        simp [mapSet, hmem]
      rw [hset, ih]
      have hfst : ∀ p : κ × α,
          ((if p.1 = key it then (p.1, it) else p) : κ × α).1 = p.1 := by
        intro p; by_cases h : p.1 = key it <;> simp [h]
      have hany : ∀ k, ((m.map fun p =>
            if p.1 = key it then (p.1, it) else p).any fun p => p.1 = k)
          = (m.any fun p => p.1 = k) := by
        intro k
        rw [List.any_map]
        apply congrArg
        funext p
        show decide ((if p.1 = key it then (p.1, it) else p).1 = k) = decide (p.1 = k)
        rw [hfst p]
      have hA1 : ((m.map fun p => if p.1 = key it then (p.1, it) else p).map
            (updEntry key rest)) = m.map (updEntry key (it :: rest)) := by
        rw [List.map_map]
        apply List.map_congr_left
        intro p _
        obtain ⟨pk, pv⟩ := p
        by_cases hpk : pk = key it
        · subst hpk
          simp only [Function.comp_apply, if_pos rfl]
          unfold updEntry
          rw [lastWithKey_cons_self]
          cases h2 : lastWithKey key rest (key it) <;> simp [h2]
        · simp only [Function.comp_apply, if_neg hpk]
          unfold updEntry
          rw [lastWithKey_cons_ne key it rest pk fun h => hpk h.symm]
      have hA2 : newEntries key
            (m.map fun p => if p.1 = key it then (p.1, it) else p) rest
          = newEntries key m (it :: rest) := by
        unfold newEntries
        have hkeys : keysInFirstOrder ((it :: rest).map key)
            = key it :: (keysInFirstOrder (rest.map key)).filter
                (fun k2 => ¬ k2 = key it) := by
          simp [keysInFirstOrder]
        rw [hkeys, List.filter_cons]
        rw [hmem]
        rw [if_neg (by simp)]
        rw [List.filter_filter]
        have hfiltL : List.filter (fun k =>
              ¬ ((m.map fun p => if p.1 = key it then (p.1, it) else p).any
                fun p => p.1 = k)) (keysInFirstOrder (rest.map key))
            = List.filter (fun k => ¬ (m.any fun p => p.1 = k))
                (keysInFirstOrder (rest.map key)) :=
          List.filter_congr fun k _ => by rw [hany k]
        rw [hfiltL]
        have hfiltR : List.filter (fun k => ¬ (m.any fun p => p.1 = k))
              (keysInFirstOrder (rest.map key))
            = List.filter (fun k => decide ¬ (m.any fun p => p.1 = k)
                  && decide ¬ k = key it) (keysInFirstOrder (rest.map key)) :=
          List.filter_congr fun k _ => by
            by_cases hk : k = key it
            · subst hk
              simp [hmem]
            · simp [hk]
        rw [hfiltR]
        apply List.filterMap_congr
        intro k hk
        have hq := List.of_mem_filter hk
        rw [Bool.and_eq_true] at hq
        have hkne : ¬ k = key it := of_decide_eq_true hq.2
        rw [lastWithKey_cons_ne key it rest k fun h => hkne h.symm]
      rw [hA1, hA2]
    · have hset : mapSet m (key it) it = m ++ [(key it, it)] := by
        simp [mapSet, hmem]
      rw [hset, ih]
      have hforall : ∀ p ∈ m, ¬ p.1 = key it := by
        intro p hp hk
        exact hmem (List.any_eq_true.mpr ⟨p, hp, by simp [hk]⟩)
      have hB1 : m.map (updEntry key (it :: rest)) = m.map (updEntry key rest) := by
        apply List.map_congr_left
        intro p hp
        unfold updEntry
        rw [lastWithKey_cons_ne key it rest p.1 fun h => hforall p hp h.symm]
      have hentry : updEntry key rest (key it, it)
          = (key it, (lastWithKey key rest (key it)).getD it) := by
        unfold updEntry
        cases h2 : lastWithKey key rest (key it) <;> simp [h2]
      have hkeys : keysInFirstOrder ((it :: rest).map key)
          = key it :: (keysInFirstOrder (rest.map key)).filter
              (fun k2 => ¬ k2 = key it) := by
        simp [keysInFirstOrder]
      have hRHS : newEntries key m (it :: rest)
          = (key it, (lastWithKey key rest (key it)).getD it) ::
            ((keysInFirstOrder (rest.map key)).filter
              (fun k => decide ¬ (m.any fun p => p.1 = k)
                && decide ¬ k = key it)).filterMap
              (fun k => (lastWithKey key rest k).map fun v => (k, v)) := by
        unfold newEntries
        rw [hkeys, List.filter_cons]
        rw [if_pos (by simp [hmem])]
        rw [List.filterMap_cons]
        rw [lastWithKey_cons_self]
        simp only [Option.map_some']
        rw [List.filter_filter]
        congr 1
        apply List.filterMap_congr
        intro k hk
        have hq := List.of_mem_filter hk
        rw [Bool.and_eq_true] at hq
        have hkne : ¬ k = key it := of_decide_eq_true hq.2
        rw [lastWithKey_cons_ne key it rest k fun h => hkne h.symm]
      have hLHS : newEntries key (m ++ [(key it, it)]) rest
          = ((keysInFirstOrder (rest.map key)).filter
              (fun k => decide ¬ (m.any fun p => p.1 = k)
                && decide ¬ k = key it)).filterMap
              (fun k => (lastWithKey key rest k).map fun v => (k, v)) := by
        unfold newEntries
        have hfilt : List.filter (fun k =>
              ¬ ((m ++ [(key it, it)]).any fun p => p.1 = k))
              (keysInFirstOrder (rest.map key))
            = List.filter (fun k => decide ¬ (m.any fun p => p.1 = k)
                && decide ¬ k = key it) (keysInFirstOrder (rest.map key)) :=
          List.filter_congr fun k _ => by
            by_cases hk : k = key it
            · subst hk
              simp [List.any_append]
            · have hk2 : ¬ key it = k := fun h => hk h.symm
              simp [List.any_append, hk, hk2]
        rw [hfilt]
      rw [List.map_append, hB1, hRHS, hLHS]
      simp [hentry, List.append_assoc]

/-- The coalescing step of the batch handler keeps, for each composite
string key, exactly the last occurrence, ordered by first appearance of
the distinct keys. -/
theorem coalesce_eq_specDedup (items : List BatchItem) :
    coalesce items = specDedup batchKey items := by
  unfold coalesce specDedup
  rw [foldl_mapSet_char batchKey items []]
  simp only [List.map_nil, List.nil_append]
  unfold newEntries
  have hfilt : List.filter
      (fun k => ¬ (([] : List (String × BatchItem)).any fun p => p.1 = k))
      (keysInFirstOrder (items.map batchKey))
      = keysInFirstOrder (items.map batchKey) := by simp
  rw [hfilt, List.map_filterMap]
  apply List.filterMap_congr
  intro k _
  cases lastWithKey batchKey items k <;> rfl

/-- Every survivor of the coalescing step is one of the submitted items. -/
theorem mem_of_mem_coalesce {x : BatchItem} {items : List BatchItem}
    (h : x ∈ coalesce items) : x ∈ items := by
  rw [coalesce_eq_specDedup] at h
  unfold specDedup at h
  obtain ⟨k, _, hlast⟩ := List.mem_filterMap.mp h
  unfold lastWithKey at hlast
  exact List.mem_of_mem_filter (List.mem_of_getLast?_eq_some hlast)

/-- Members of the groups built by folding `upsertGroup` over a list all
come from the starting groups or from the folded list. -/
theorem foldl_upsertGroup_mem (d : List BatchItem) :
    ∀ (l : List BatchItem) (acc : List (String × List BatchItem)),
    (∀ p ∈ acc, ∀ x ∈ p.2, x ∈ d) → (∀ it ∈ l, it ∈ d) →
    ∀ p ∈ l.foldl (fun m it => upsertGroup m it.deviceId it) acc,
    ∀ x ∈ p.2, x ∈ d := by
  intro l
  induction l with
  | nil =>
    intro acc hacc _ p hp
    exact hacc p hp
  | cons it rest ihl =>
    intro acc hacc hl
    rw [List.foldl_cons]
    apply ihl
    · intro p hp x hx
      unfold upsertGroup at hp
      by_cases h : (acc.any fun q => q.1 = it.deviceId) = true
      · rw [if_pos h] at hp
        obtain ⟨q, hq, rfl⟩ := List.mem_map.mp hp
        by_cases h2 : q.1 = it.deviceId
        · rw [if_pos h2] at hx
          rcases List.mem_append.mp hx with hx2 | hx2
          · exact hacc q hq x hx2
          · simp at hx2
            rw [hx2]
            exact hl it (List.mem_cons_self it rest)
        · rw [if_neg h2] at hx
          exact hacc q hq x hx
      · rw [if_neg h] at hp
        rcases List.mem_append.mp hp with hq | hq
        · exact hacc p hq x hx
        · simp at hq
          rw [hq] at hx
          simp at hx
          rw [hx]
          exact hl it (List.mem_cons_self it rest)
    · intro i hi
      exact hl i (List.mem_cons_of_mem _ hi)

/-- Members of a `byDevice` group are deduplicated items. -/
theorem mem_of_mem_groupByDevice {deduped : List BatchItem}
    {p : String × List BatchItem} (hp : p ∈ groupByDevice deduped)
    {x : BatchItem} (hx : x ∈ p.2) : x ∈ deduped :=
  foldl_upsertGroup_mem deduped deduped [] (by simp) (fun _ h => h) p hp x hx

/-- The effect trace of an adapter `control` call is empty or a single
control POST for the given device reference and encoded command. -/
theorem adapterControl_snd (a : AdapterKind) (w : World) (cfg : Config)
    (ref : DeviceRef) (cmd : ControlCmd) :
    (adapterControl a w cfg ref cmd).2 = [] ∨
    (adapterControl a w cfg ref cmd).2
      = [Eff.controlPost ref (encodeCapability cmd)] := by
  cases a with
  | cloud =>
    by_cases h : cfg.dryRun <;>
      simp [adapterControl, CloudAdapter.control, h]
  | lan =>
    by_cases h : cfg.lanEnabled <;>
      simp [adapterControl, LanAdapter.control, h]

/-- Every effect emitted by the sequential control loop is a control POST
for one of its items. -/
theorem runControls_mem (w : World) (cfg : Config) (a : AdapterKind) :
    ∀ (l : List BatchItem) (e : Eff), e ∈ (runControls w cfg a l).2 →
    ∃ it ∈ l, e = Eff.controlPost { deviceId := it.deviceId, model := it.model }
      (encodeCapability it.cmd) := by
  intro l
  induction l with
  | nil =>
    intro e he
    simp [runControls] at he
  | cons it rest ihl =>
    intro e he
    rw [runControls] at he
    have hhead : e ∈ (adapterControl a w cfg
          { deviceId := it.deviceId, model := it.model } it.cmd).2 →
        e = Eff.controlPost { deviceId := it.deviceId, model := it.model }
          (encodeCapability it.cmd) := by
      intro hmem
      rcases adapterControl_snd a w cfg
          { deviceId := it.deviceId, model := it.model } it.cmd with h | h
      · rw [h] at hmem
        simp at hmem
      · rw [h] at hmem
        simpa using hmem
    cases hr : (adapterControl a w cfg
        { deviceId := it.deviceId, model := it.model } it.cmd).1 with
    | error err =>
      rw [hr] at he
      simp at he
      exact ⟨it, List.mem_cons_self it rest, hhead he⟩
    | ok u =>
      rw [hr] at he
      simp at he
      rcases he with he | he
      · exact ⟨it, List.mem_cons_self it rest, hhead he⟩
      · obtain ⟨i, hi, hie⟩ := ihl e he
        exact ⟨i, List.mem_cons_of_mem _ hi, hie⟩

/-- Every effect emitted by the per-device group runner is a control POST
for an item of one of the groups. -/
theorem runGroups_mem (w : World) (cfg : Config) :
    ∀ (gs : List (String × List BatchItem)) (e : Eff),
    e ∈ (runGroups w cfg gs).2 →
    ∃ g ∈ gs, ∃ it ∈ g.2,
      e = Eff.controlPost { deviceId := it.deviceId, model := it.model }
        (encodeCapability it.cmd) := by
  intro gs
  induction gs with
  | nil =>
    intro e he
    simp [runGroups] at he
  | cons g rest ihg =>
    intro e he
    obtain ⟨deviceId, cmds⟩ := g
    rw [runGroups] at he
    cases hr : (runControls w cfg (pickAdapter cfg deviceId) cmds).1 with
    | error err =>
      rw [hr] at he
      simp at he
      obtain ⟨it, hit, hie⟩ := runControls_mem w cfg _ cmds e he
      exact ⟨(deviceId, cmds), List.mem_cons_self _ rest, it, hit, hie⟩
    | ok u =>
      rw [hr] at he
      simp at he
      rcases he with he | he
      · obtain ⟨it, hit, hie⟩ := runControls_mem w cfg _ cmds e he
        exact ⟨(deviceId, cmds), List.mem_cons_self _ rest, it, hit, hie⟩
      · obtain ⟨g2, hg2, it, hit, hie⟩ := ihg e he
        exact ⟨g2, List.mem_cons_of_mem _ hg2, it, hit, hie⟩

theorem toInt32_natCast (n : ℕ) (h : n < 2 ^ 31) : toInt32 (n : ℚ) = (n : ℤ) := by
  unfold toInt32
  rw [if_pos (by positivity)]
  rw [Int.floor_natCast]
  have h2 : (n : ℤ) < 2 ^ 31 := by exact_mod_cast h
  have e32 : ((2 : ℤ) ^ 32) = 4294967296 := by norm_num
  have e31 : ((2 : ℤ) ^ 31) = 2147483648 := by norm_num
  rw [e32, e31]
  rw [e31] at h2
  omega

theorem bits32_natCast (n : ℕ) (h : n < 2 ^ 32) : bits32 (n : ℤ) = n := by
  unfold bits32
  have h2 : (n : ℤ) < 2 ^ 32 := by exact_mod_cast h
  have e32 : ((2 : ℤ) ^ 32) = 4294967296 := by norm_num
  rw [e32]
  rw [e32] at h2
  omega

theorem ofBits32_small (u : ℕ) (h : u < 2 ^ 31) : ofBits32 u = (u : ℤ) := by
  unfold ofBits32
  rw [Nat.mod_eq_of_lt (by omega)]
  rw [if_pos h]

theorem jsShl32_small (x : ℕ) (n : ℕ) (h : x * 2 ^ n < 2 ^ 31) :
    jsShl32 (x : ℤ) n = ((x * 2 ^ n : ℕ) : ℤ) := by
  unfold jsShl32
  rw [bits32_natCast x (by nlinarith [Nat.one_le_two_pow (n := n)])]
  rw [Nat.shiftLeft_eq]
  exact ofBits32_small _ h

theorem jsOr32_small (x y : ℕ) (hx : x < 2 ^ 31) (hy : y < 2 ^ 31) :
    jsOr32 (x : ℤ) (y : ℤ) = ((x ||| y : ℕ) : ℤ) := by
  unfold jsOr32
  rw [bits32_natCast x (by omega), bits32_natCast y (by omega)]
  exact ofBits32_small _ (Nat.or_lt_two_pow hx hy)

theorem packRgb_nat (r g b : ℕ) (hr : r ≤ 255) (hg : g ≤ 255) (hb : b ≤ 255) :
    packRgb { r := (r : ℚ), g := (g : ℚ), b := (b : ℚ) }
      = ((r * 65536 + g * 256 + b : ℕ) : ℤ) := by
  unfold packRgb
  rw [toInt32_natCast r (by omega), toInt32_natCast g (by omega),
      toInt32_natCast b (by omega)]
  rw [jsShl32_small r 16 (by omega), jsShl32_small g 8 (by omega)]
  rw [jsOr32_small (r * 2 ^ 16) (g * 2 ^ 8) (by omega) (by omega)]
  have h1 : r * 2 ^ 16 ||| g * 2 ^ 8 = r * 2 ^ 16 + g * 2 ^ 8 := by
    rw [Nat.mul_comm r (2 ^ 16)]
    exact (Nat.mul_add_lt_is_or (by omega) r).symm
  rw [h1]
  rw [jsOr32_small (r * 2 ^ 16 + g * 2 ^ 8) b (by omega) (by omega)]
  have e : r * 2 ^ 16 + g * 2 ^ 8 = 2 ^ 8 * (r * 2 ^ 8 + g) := by ring
  have h2 : r * 2 ^ 16 + g * 2 ^ 8 ||| b = r * 2 ^ 16 + g * 2 ^ 8 + b := by
    rw [e]
    exact (Nat.mul_add_lt_is_or (by omega) (r * 2 ^ 8 + g)).symm
  rw [h2]
  push_cast
  ring

theorem toInt32_intCast (n : ℤ) (h0 : 0 ≤ n) (h : n < 2 ^ 31) :
    toInt32 (n : ℚ) = n := by
  unfold toInt32
  rw [if_pos (by exact_mod_cast h0)]
  rw [Int.floor_intCast]
  have e32 : ((2 : ℤ) ^ 32) = 4294967296 := by norm_num
  have e31 : ((2 : ℤ) ^ 31) = 2147483648 := by norm_num
  rw [e32, e31]
  rw [e31] at h
  omega

theorem applyCap_powerSwitch (st : State) (v : CapValue) :
    applyCap st { type := "devices.capabilities.on_off", inst := "powerSwitch", value := v }
      = { st with power := some (if v = .num 1 then Power.on else Power.off) } := rfl

theorem applyCap_brightness (st : State) (v : CapValue) :
    applyCap st { type := "devices.capabilities.range", inst := "brightness", value := v }
      = { st with brightness := some (jsToNumber v) } := rfl

theorem applyCap_colorRgb (st : State) (v : CapValue) :
    applyCap st { type := "devices.capabilities.color_setting", inst := "colorRgb", value := v }
      = { st with color := some (Rgb.mk
          ((jsAnd255 (jsShr32 (toInt32 (jsToNumber v)) 16) : ℤ) : ℚ)
          ((jsAnd255 (jsShr32 (toInt32 (jsToNumber v)) 8) : ℤ) : ℚ)
          ((jsAnd255 (toInt32 (jsToNumber v)) : ℤ) : ℚ)) } := rfl

theorem applyCap_colorTemperatureK (st : State) (v : CapValue) :
    applyCap st { type := "devices.capabilities.color_setting", inst := "colorTemperatureK", value := v }
      = { st with colorTem := some (jsToNumber v) } := rfl

theorem applyCap_lightScene (st : State) (v : CapValue) :
    applyCap st { type := "devices.capabilities.dynamic_scene", inst := "lightScene", value := v }
      = st := rfl

theorem unpack_components (r g b : ℕ) (hr : r ≤ 255) (hg : g ≤ 255)
    (hb : b ≤ 255) :
    jsAnd255 (jsShr32 ((r * 65536 + g * 256 + b : ℕ) : ℤ) 16) = (r : ℤ) ∧
    jsAnd255 (jsShr32 ((r * 65536 + g * 256 + b : ℕ) : ℤ) 8) = (g : ℤ) ∧
    jsAnd255 ((r * 65536 + g * 256 + b : ℕ) : ℤ) = (b : ℤ) := by
  unfold jsAnd255 jsShr32
  have h1 : ((2 : ℤ) ^ 16) = 65536 := by norm_num
  have h2 : ((2 : ℤ) ^ 8) = 256 := by norm_num
  rw [h1, h2]
  push_cast
  refine ⟨by omega, by omega, by omega⟩

theorem decode_turn (p : Power) :
    decodeState [encodeCapability (.turn p)] = { power := some p } := by
  cases p <;> rfl

theorem decode_brightness (v : ℚ) :
    decodeState [encodeCapability (.brightness v)] = { brightness := some v } := rfl

theorem decode_colorTem (v : ℚ) :
    decodeState [encodeCapability (.colorTem v)] = { colorTem := some v } := rfl

theorem decode_scene_drops (s : String) :
    decodeState [encodeCapability (.scene s)] = {} := rfl

theorem decode_color (r g b : ℕ) (hr : r ≤ 255) (hg : g ≤ 255) (hb : b ≤ 255) :
    decodeState [encodeCapability (.color (Rgb.mk (r : ℚ) (g : ℚ) (b : ℚ)))]
      = { color := some (Rgb.mk (r : ℚ) (g : ℚ) (b : ℚ)) } := by
  have hstep : decodeState [encodeCapability (.color (Rgb.mk (r : ℚ) (g : ℚ) (b : ℚ)))]
      = { color := some (Rgb.mk
          ((jsAnd255 (jsShr32 (toInt32 ((packRgb (Rgb.mk (r : ℚ) (g : ℚ) (b : ℚ)) : ℤ) : ℚ)) 16) : ℤ) : ℚ)
          ((jsAnd255 (jsShr32 (toInt32 ((packRgb (Rgb.mk (r : ℚ) (g : ℚ) (b : ℚ)) : ℤ) : ℚ)) 8) : ℤ) : ℚ)
          ((jsAnd255 (toInt32 ((packRgb (Rgb.mk (r : ℚ) (g : ℚ) (b : ℚ)) : ℤ) : ℚ)) : ℤ) : ℚ)) } := rfl
  rw [hstep]
  rw [packRgb_nat r g b hr hg hb]
  have hlt : ((r * 65536 + g * 256 + b : ℕ) : ℤ) < 2 ^ 31 := by
    push_cast
    omega
  rw [toInt32_intCast _ (by positivity) hlt]
  obtain ⟨h1, h2, h3⟩ := unpack_components r g b hr hg hb
  rw [h1, h2, h3]
  simp only [Int.cast_natCast]

/-- A quiet test environment: no devices, empty state, HTTP 200. -/
def wTest : World := { devicesResp := [], stateResp := [], status := 200 }

/-- A configuration whose allowlist admits only device "A". -/
def cfgA : Config := { allowlist := ["A"], dryRun := false, lanEnabled := false }

/-- A configuration with an empty allowlist (allow all). -/
def cfg0 : Config := { allowlist := [], dryRun := false, lanEnabled := false }

/-- Raw device records for the listing example. -/
def rawA : RawDevice :=
  { device := "A", sku := "H6104", deviceName := "Desk", capabilities := [] }

/-- Second raw device record. -/
def rawB : RawDevice :=
  { device := "B", sku := "H6104", deviceName := "Shelf", capabilities := [] }

/-- An environment with devices A and B bound to the account. -/
def wAB : World := { devicesResp := [rawA, rawB], stateResp := [], status := 200 }

/-- The coalescing example of the spec: brightness 10 then 90 then a color
command, all on device A. -/
def exBatch : List BatchItem :=
  [ { deviceId := "A", model := "M", cmd := .brightness 10 },
    { deviceId := "A", model := "M", cmd := .brightness 90 },
    { deviceId := "A", model := "M", cmd := .color (Rgb.mk 255 0 0) } ]

/-- Two batch items with distinct `(deviceId, model, cmd.kind)` triples
whose colon-joined string keys coincide (`a:b:c:turn`). -/
def exCollide : List BatchItem :=
  [ { deviceId := "a:b", model := "c", cmd := .turn .on },
    { deviceId := "a", model := "b:c", cmd := .turn .on } ]

/-- C5: with the dry-run flag set, `CloudAdapter.control` and
`CloudAdapter.batch` perform zero network transport calls (empty effect
trace) and succeed, for every device reference and every command list; the
dry-run check runs before any network interaction. -/
theorem c5_dry_run_short_circuit (w : World) (cfg : Config)
    (ref : DeviceRef) (cmd : ControlCmd) (items : List BatchItem)
    (h : cfg.dryRun = true) :
    CloudAdapter.control w cfg ref cmd = (.ok (), []) ∧
    CloudAdapter.batch w cfg items = (.ok (), []) := by
  constructor <;> simp [CloudAdapter.control, CloudAdapter.batch, h]

/-- Witness for C5 at a failing-status world, which dry-run never sees. -/
theorem c5_dry_run_short_circuit_witness :
    CloudAdapter.control { devicesResp := [], stateResp := [], status := 500 }
        { allowlist := [], dryRun := true, lanEnabled := false }
        { deviceId := "A", model := "M" } (.turn .on) = (.ok (), []) ∧
    CloudAdapter.batch { devicesResp := [], stateResp := [], status := 500 }
        { allowlist := [], dryRun := true, lanEnabled := false }
        [{ deviceId := "A", model := "M", cmd := .turn .on }] = (.ok (), []) :=
  c5_dry_run_short_circuit _ _ _ _ _ rfl

/-- C6: on any non-success HTTP response the `post` and `get` helpers raise
an upstream error determined by the status alone; two non-success responses
with equal status and arbitrary (possibly different) bodies yield identical
errors, whose message carries only the status. -/
theorem c6_upstream_error_only_status (r1 r2 : HttpResponse)
    (hs : r1.status = r2.status) (h1 : httpOk r1.status = false) :
    CloudAdapter.post r1 = .error (.upstream r1.status) ∧
    CloudAdapter.get r1 = .error (.upstream r1.status) ∧
    CloudAdapter.post r1 = CloudAdapter.post r2 ∧
    CloudAdapter.get r1 = CloudAdapter.get r2 ∧
    (GoveeError.upstream r1.status).message
      = "Govee API error " ++ toString r1.status ++ ": Request failed" := by
  have h2 : httpOk r2.status = false := hs ▸ h1
  refine ⟨?_, ?_, ?_, ?_, rfl⟩ <;> simp [CloudAdapter.post, CloudAdapter.get, h1, h2, hs]

/-- Witness for C6: two 500 responses with different bodies. -/
theorem c6_upstream_error_only_status_witness :
    CloudAdapter.post { status := 500, body := "secret vendor detail" }
      = .error (.upstream 500) ∧
    CloudAdapter.get { status := 500, body := "secret vendor detail" }
      = .error (.upstream 500) ∧
    CloudAdapter.post { status := 500, body := "secret vendor detail" }
      = CloudAdapter.post { status := 500, body := "other body" } ∧
    CloudAdapter.get { status := 500, body := "secret vendor detail" }
      = CloudAdapter.get { status := 500, body := "other body" } ∧
    (GoveeError.upstream 500).message
      = "Govee API error " ++ toString 500 ++ ": Request failed" :=
  c6_upstream_error_only_status
    { status := 500, body := "secret vendor detail" }
    { status := 500, body := "other body" } rfl (by decide)

/-- C10: for every `rps > 0` the bucket invariant `1 ≤ capacity` and
`0 ≤ tokens ≤ capacity` holds at construction, and one `take()` loop
iteration preserves it whenever the observed elapsed time is nonnegative. -/
theorem c10_token_bucket_invariant (rps : ℚ) (hrps : 0 < rps) :
    TokenBucketLimiter.Inv (TokenBucketLimiter.init rps) ∧
    ∀ (b : TokenBucketLimiter) (elapsed : ℚ), TokenBucketLimiter.Inv b →
      0 ≤ elapsed → 0 ≤ b.refillRatePerSec →
      TokenBucketLimiter.Inv (b.takeStep elapsed).1 := by
  constructor
  · refine ⟨le_max_left 1 rps, ?_, le_refl _⟩
    exact le_trans zero_le_one (le_max_left 1 rps)
  · intro b elapsed hInv hel hrate
    obtain ⟨hc, ht0, htc⟩ := hInv
    have hmul : 0 ≤ elapsed * b.refillRatePerSec := mul_nonneg hel hrate
    unfold TokenBucketLimiter.takeStep
    by_cases h1 : 1 ≤ min b.capacity (b.tokens + elapsed * b.refillRatePerSec)
    · rw [if_pos h1]
      refine ⟨hc, ?_, ?_⟩
      · show 0 ≤ min b.capacity (b.tokens + elapsed * b.refillRatePerSec) - 1
        linarith
      · show min b.capacity (b.tokens + elapsed * b.refillRatePerSec) - 1 ≤ b.capacity
        have := min_le_left b.capacity (b.tokens + elapsed * b.refillRatePerSec)
        linarith
    · rw [if_neg h1]
      refine ⟨hc, ?_, ?_⟩
      · show 0 ≤ min b.capacity (b.tokens + elapsed * b.refillRatePerSec)
        exact le_min (by linarith) (by linarith)
      · show min b.capacity (b.tokens + elapsed * b.refillRatePerSec) ≤ b.capacity
        exact min_le_left _ _

/-- Witness for C10 at `rps = 5` and a zero-elapsed iteration. -/
theorem c10_token_bucket_invariant_witness :
    TokenBucketLimiter.Inv (TokenBucketLimiter.init 5) ∧
    TokenBucketLimiter.Inv ((TokenBucketLimiter.init 5).takeStep 0).1 := by
  have h := c10_token_bucket_invariant 5 (by norm_num)
  refine ⟨h.1, h.2 (TokenBucketLimiter.init 5) 0 h.1 (by norm_num) ?_⟩
  show (0 : ℚ) ≤ 5
  norm_num

/-- C4: an out-of-range numeric argument (brightness percent outside
0–100, a color component outside 0–255, kelvin outside 1000–10000) fails
the call with a validation error and an empty effect trace — so before any
authorization check (the result is the same for any allowlist) and before
any rate-limiter admission or network call. -/
theorem c4_range_validation (w : World) (cfg : Config)
    (deviceId model : String) :
    (∀ percent : ℚ, percent < 0 ∨ 100 < percent →
      govee_set_brightness w cfg deviceId model percent
        = (.error .validation, [])) ∧
    (∀ r g b : ℚ, r < 0 ∨ 255 < r ∨ g < 0 ∨ 255 < g ∨ b < 0 ∨ 255 < b →
      govee_set_color w cfg deviceId model r g b
        = (.error .validation, [])) ∧
    (∀ kelvin : ℚ, kelvin < 1000 ∨ 10000 < kelvin →
      govee_set_color_temp w cfg deviceId model kelvin
        = (.error .validation, [])) := by
  refine ⟨?_, ?_, ?_⟩
  · intro p hp
    unfold govee_set_brightness
    rw [if_pos ?_]
    rintro ⟨ha, hb⟩
    rcases hp with h | h <;> linarith
  · intro r g b hrgb
    unfold govee_set_color
    rw [if_pos ?_]
    rintro ⟨h1, h2, h3, h4, h5, h6⟩
    rcases hrgb with h | h | h | h | h | h <;> linarith
  · intro k hk
    unfold govee_set_color_temp
    rw [if_pos ?_]
    rintro ⟨ha, hb⟩
    rcases hk with h | h <;> linarith

/-- Witness for C4: percent 150, red 300 and kelvin 500 each fail with a
validation error on a device ("B") that the allowlist would also reject,
showing validation precedes authorization. -/
theorem c4_range_validation_witness :
    govee_set_brightness wTest cfgA ("B") ("M") 150
      = (.error .validation, []) ∧
    govee_set_color wTest cfgA ("B") ("M") 300 0 0
      = (.error .validation, []) ∧
    govee_set_color_temp wTest cfgA ("B") ("M") 500
      = (.error .validation, []) :=
  ⟨(c4_range_validation wTest cfgA ("B") ("M")).1 150 (Or.inr (by norm_num)),
   (c4_range_validation wTest cfgA ("B") ("M")).2.1 300 0 0
     (Or.inr (Or.inl (by norm_num))),
   (c4_range_validation wTest cfgA ("B") ("M")).2.2 500 (Or.inl (by norm_num))⟩

/-- C8: for in-range (possibly non-integer) inputs on an allowed device
with the cloud backend live, `set_brightness` and `set_color_temp` send
`Math.round` of the input to the backend (the control POST carries the
rounded value) and echo the rounded value, not the raw input, in the
success message. -/
theorem c8_math_round_before_dispatch (w : World) (cfg : Config)
    (deviceId model : String) (percent kelvin : ℚ)
    (hp0 : 0 ≤ percent) (hp1 : percent ≤ 100)
    (hk0 : 1000 ≤ kelvin) (hk1 : kelvin ≤ 10000)
    (hallow : isAllowed cfg.allowlist deviceId = true)
    (hdry : cfg.dryRun = false) (hlan : cfg.lanEnabled = false)
    (hok : httpOk w.status = true) :
    govee_set_brightness w cfg deviceId model percent
      = (.ok ("Brightness set to " ++ toString (jsRound percent) ++ "%."),
         [.takeToken, .controlPost { deviceId, model }
           { type := "devices.capabilities.range", inst := "brightness",
             value := .num ((jsRound percent : ℤ) : ℚ) }]) ∧
    govee_set_color_temp w cfg deviceId model kelvin
      = (.ok ("Color temp set to " ++ toString (jsRound kelvin) ++ "K."),
         [.takeToken, .controlPost { deviceId, model }
           { type := "devices.capabilities.color_setting",
             inst := "colorTemperatureK",
             value := .num ((jsRound kelvin : ℤ) : ℚ) }]) := by
  constructor
  · unfold govee_set_brightness
    rw [if_neg (fun hc => hc ⟨hp0, hp1⟩), if_neg (fun hc => hc hallow)]
    simp [pickAdapter, hlan, adapterControl, CloudAdapter.control, hdry, hok,
      encodeCapability]
  · unfold govee_set_color_temp
    rw [if_neg (fun hc => hc ⟨hk0, hk1⟩), if_neg (fun hc => hc hallow)]
    simp [pickAdapter, hlan, adapterControl, CloudAdapter.control, hdry, hok,
      encodeCapability]

/-- Witness for C8 at percent 55.5 (rounds to 56) and kelvin 3476.5
(rounds to 3477). -/
theorem c8_math_round_before_dispatch_witness :
    govee_set_brightness wTest cfg0 ("A") ("M") (111 / 2)
      = (.ok ("Brightness set to " ++ toString (jsRound (111 / 2 : ℚ)) ++ "%."),
         [.takeToken, .controlPost { deviceId := "A", model := "M" }
           { type := "devices.capabilities.range", inst := "brightness",
             value := .num ((jsRound (111 / 2 : ℚ) : ℤ) : ℚ) }]) ∧
    govee_set_color_temp wTest cfg0 ("A") ("M") (6953 / 2)
      = (.ok ("Color temp set to " ++ toString (jsRound (6953 / 2 : ℚ)) ++ "K."),
         [.takeToken, .controlPost { deviceId := "A", model := "M" }
           { type := "devices.capabilities.color_setting",
             inst := "colorTemperatureK",
             value := .num ((jsRound (6953 / 2 : ℚ) : ℤ) : ℚ) }]) ∧
    jsRound (111 / 2 : ℚ) = 56 ∧ jsRound (6953 / 2 : ℚ) = 3477 := by
  have h := c8_math_round_before_dispatch wTest cfg0 ("A") ("M") (111 / 2) (6953 / 2)
    (by norm_num) (by norm_num) (by norm_num) (by norm_num) rfl rfl rfl rfl
  refine ⟨h.1, h.2, ?_, ?_⟩ <;>
    · unfold jsRound
      norm_num

/-- Counterexample for C2 as stated: the `scene` command encodes to the
`dynamic_scene` capability envelope, but `getState` decoding has no branch
for that envelope, so the decoded state does not carry the scene back. -/
theorem c2_scene_counterexample :
    (decodeState [encodeCapability (.scene ("movie"))]).scene
      ≠ some ("movie") := by
  rw [decode_scene_drops]
  simp

/-- C2 amended: for the `turn`, `brightness`, `color` and `colorTem`
commands, encoding to a capability envelope and decoding the one-element
envelope array restores the command value exactly; color with integer
components 0–255 encodes to the packed value `r*65536 + g*256 + b` and
decodes back to exactly `(r, g, b)`.  The `scene` command is excluded: it
encodes but does not decode (see the counterexample). -/
theorem c2_encode_decode_round_trip (p : Power) (bq tq : ℚ) (r g b : ℕ)
    (hr : r ≤ 255) (hg : g ≤ 255) (hb : b ≤ 255) :
    decodeState [encodeCapability (.turn p)] = { power := some p } ∧
    decodeState [encodeCapability (.brightness bq)]
      = { brightness := some bq } ∧
    (encodeCapability (.color (Rgb.mk (r : ℚ) (g : ℚ) (b : ℚ)))).value
      = .num (((r * 65536 + g * 256 + b : ℕ) : ℤ) : ℚ) ∧
    decodeState [encodeCapability (.color (Rgb.mk (r : ℚ) (g : ℚ) (b : ℚ)))]
      = { color := some (Rgb.mk (r : ℚ) (g : ℚ) (b : ℚ)) } ∧
    decodeState [encodeCapability (.colorTem tq)] = { colorTem := some tq } :=
  ⟨decode_turn p, decode_brightness bq,
   by
    show CapValue.num ((packRgb (Rgb.mk (r : ℚ) (g : ℚ) (b : ℚ)) : ℤ) : ℚ) = _
    rw [packRgb_nat r g b hr hg hb],
   decode_color r g b hr hg hb, decode_colorTem tq⟩

/-- Witness for C2 at color (10,20,30): the packed value is 660510 and the
decode restores (10,20,30); `turn on` and a brightness value round-trip
too. -/
theorem c2_encode_decode_round_trip_witness :
    (encodeCapability (.color (Rgb.mk 10 20 30))).value = .num 660510 ∧
    decodeState [encodeCapability (.color (Rgb.mk 10 20 30))]
      = { color := some (Rgb.mk 10 20 30) } ∧
    decodeState [encodeCapability (.turn .on)] = { power := some .on } ∧
    decodeState [encodeCapability (.brightness 50)]
      = { brightness := some 50 } := by
  have h := c2_encode_decode_round_trip .on 50 4000 10 20 30
    (by norm_num) (by norm_num) (by norm_num)
  refine ⟨?_, ?_, h.1, h.2.1⟩
  · have h3 := h.2.2.1
    norm_num at h3
    convert h3 using 3
  · have h4 := h.2.2.2.1
    convert h4 using 4

/-- Counterexample for C1 as stated: after (trivial) allowlist filtering,
the two items of `exCollide` have distinct `(deviceId, model, cmd.kind)`
triples, so a dedup keyed on the triple keeps both; the code's dedup keys
on the colon-joined string `deviceId:model:cmd.name`, the two joins
coincide (`a:b:c:turn`), and only one item survives. -/
theorem c1_triple_key_counterexample :
    coalesce (exCollide.filter fun i => isAllowed [] i.deviceId)
      ≠ specDedup tripleKey (exCollide.filter fun i => isAllowed [] i.deviceId) := by
  decide

/-- C1 amended: after allowlist filtering, deduplication keeps, for each
composite string key `deviceId:model:cmd.name` (so distinct triples whose
colon-joins coincide are merged), exactly the last occurrence of that key,
ordered by first appearance of the distinct keys; in particular the batch
[(A,brightness=10), (A,brightness=90), (A,color=255,0,0)] dedups to
exactly (A,brightness=90) then (A,color=255,0,0), in that order. -/
theorem c1_batch_dedup_last_write_wins :
    (∀ (al : List String) (items : List BatchItem),
      coalesce (items.filter fun i => isAllowed al i.deviceId)
        = specDedup batchKey (items.filter fun i => isAllowed al i.deviceId)) ∧
    coalesce exBatch
      = [{ deviceId := "A", model := "M", cmd := .brightness 90 },
         { deviceId := "A", model := "M", cmd := .color (Rgb.mk 255 0 0) }] :=
  ⟨fun _ items => coalesce_eq_specDedup _, by decide⟩

/-- C9: `list_devices` issues the cloud device-list GET and its outcome is
independent of the LAN flag, while `pickAdapter` (used by `get_state`, the
single-device control operations and `batch`) routes to the LAN adapter
exactly when the LAN flag is set — with the flag on, those operations hit
the LAN stub (and fail as unimplemented) instead of the cloud. -/
theorem c9_list_devices_always_cloud (w : World) (cfg : Config)
    (deviceId model : String) (d : Bool) :
    (∀ le : Bool, govee_list_devices w { cfg with lanEnabled := le }
        = govee_list_devices w cfg) ∧
    (govee_list_devices w cfg).2 = [.takeToken, .devicesGet] ∧
    pickAdapter { cfg with lanEnabled := true } deviceId = .lan ∧
    pickAdapter { cfg with lanEnabled := false } deviceId = .cloud ∧
    govee_get_state w { allowlist := [], dryRun := d, lanEnabled := true }
        deviceId model = (.error .lanGetStateUnimplemented, [.takeToken]) ∧
    govee_set_power w { allowlist := [], dryRun := d, lanEnabled := true }
        deviceId model true
      = (.error .lanControlUnimplemented, [.takeToken]) ∧
    govee_batch w { allowlist := [], dryRun := d, lanEnabled := true }
        [{ deviceId := deviceId, model := model, cmd := .turn .on }]
      = (.error .lanControlUnimplemented, [.takeToken]) := by
  refine ⟨fun le => rfl, ?_, rfl, rfl, rfl, rfl, rfl⟩
  unfold govee_list_devices
  split <;> rfl

theorem govee_batch_snd (w : World) (cfg : Config) (items : List BatchItem) :
    (govee_batch w cfg items).2 = [] ∨
    (govee_batch w cfg items).2
      = .takeToken :: (runGroups w cfg (groupByDevice (coalesce
          (items.filter fun i => isAllowed cfg.allowlist i.deviceId)))).2 := by
  unfold govee_batch
  by_cases hv : batchInputValid items = true
  · rw [if_neg (fun hc => hc hv)]
    by_cases hz : (items.filter fun i => isAllowed cfg.allowlist i.deviceId).length = 0
    · rw [if_pos hz]
      left
      rfl
    · rw [if_neg hz]
      right
      dsimp only
      cases hr : (runGroups w cfg (groupByDevice (coalesce
          (items.filter fun i => isAllowed cfg.allowlist i.deviceId)))).1 <;>
        rfl
  · rw [if_pos hv]
    left
    rfl

theorem govee_batch_invalid (w : World) (cfg : Config) (items : List BatchItem)
    (hv : ¬ batchInputValid items = true) :
    govee_batch w cfg items = (.error .validation, []) := by
  unfold govee_batch
  rw [if_pos hv]

theorem govee_batch_all_filtered (w : World) (cfg : Config)
    (items : List BatchItem) (hv : batchInputValid items = true)
    (hz : (items.filter fun i => isAllowed cfg.allowlist i.deviceId).length = 0) :
    govee_batch w cfg items = (.error .noAllowedItems, []) := by
  unfold govee_batch
  rw [if_neg (fun hc => hc hv)]
  dsimp only
  rw [if_pos hz]

theorem takeToken_not_mem_runGroups (w : World) (cfg : Config)
    (gs : List (String × List BatchItem)) :
    Eff.takeToken ∉ (runGroups w cfg gs).2 := by
  intro h
  obtain ⟨g, _, it, _, he⟩ := runGroups_mem w cfg gs _ h
  simp at he

theorem govee_batch_trace_allowed (w : World) (cfg : Config)
    (items : List BatchItem) (ref : DeviceRef) (cap : Capability)
    (h : Eff.controlPost ref cap ∈ (govee_batch w cfg items).2) :
    isAllowed cfg.allowlist ref.deviceId = true := by
  rcases govee_batch_snd w cfg items with hsnd | hsnd
  · rw [hsnd] at h
    simp at h
  · rw [hsnd] at h
    rcases List.mem_cons.mp h with h2 | h2
    · simp at h2
    · obtain ⟨g, hg, it, hit, he⟩ := runGroups_mem w cfg _ _ h2
      have hdedup : it ∈ coalesce
          (items.filter fun i => isAllowed cfg.allowlist i.deviceId) :=
        mem_of_mem_groupByDevice hg hit
      have hfil : it ∈ items.filter fun i => isAllowed cfg.allowlist i.deviceId :=
        mem_of_mem_coalesce hdedup
      have hallow : isAllowed cfg.allowlist it.deviceId = true := by
        have := List.of_mem_filter hfil
        simpa using this
      injection he with h1 h2
      rw [h1]
      exact hallow

/-- Counterexample for C7 as stated: a batch invocation whose single item
fails the allowlist consumes zero admissions (it throws "No allowed items"
before `limiter.take()`), not exactly one. -/
theorem c7_counterexample :
    ¬ ((govee_batch wTest cfgA
        [{ deviceId := "B", model := "M", cmd := .turn .on }]).2.count
          Eff.takeToken = 1) := by
  decide

/-- C7 amended: a batch invocation that passes schema validation and
retains at least one allowlist-admitted item consumes exactly one
rate-limiter admission, regardless of item count, devices, or network
calls; an invocation whose items are all disallowed (or whose input is
invalid) consumes none. -/
theorem c7_one_admission_per_batch (w : World) (cfg : Config)
    (items : List BatchItem) :
    (batchInputValid items = true →
      (∃ i ∈ items, isAllowed cfg.allowlist i.deviceId = true) →
      (govee_batch w cfg items).2.count Eff.takeToken = 1) ∧
    ((∀ i ∈ items, isAllowed cfg.allowlist i.deviceId = false) →
      (govee_batch w cfg items).2.count Eff.takeToken = 0) := by
  constructor
  · rintro hv ⟨i, hi, hal⟩
    have hz : ¬ (items.filter fun i =>
        isAllowed cfg.allowlist i.deviceId).length = 0 := by
      rw [List.length_eq_zero, List.filter_eq_nil_iff]
      intro hall
      exact absurd hal (by simpa using hall i hi)
    have hsnd : (govee_batch w cfg items).2
        = .takeToken :: (runGroups w cfg (groupByDevice (coalesce
            (items.filter fun i => isAllowed cfg.allowlist i.deviceId)))).2 := by
      unfold govee_batch
      rw [if_neg (fun hc => hc hv)]
      dsimp only
      rw [if_neg hz]
      cases hr : (runGroups w cfg (groupByDevice (coalesce
          (items.filter fun i => isAllowed cfg.allowlist i.deviceId)))).1 <;>
        rfl
    rw [hsnd, List.count_cons_self,
        List.count_eq_zero.mpr (takeToken_not_mem_runGroups w cfg _)]
  · intro hall
    by_cases hv : batchInputValid items = true
    · have hz : (items.filter fun i =>
          isAllowed cfg.allowlist i.deviceId).length = 0 := by
        rw [List.length_eq_zero, List.filter_eq_nil_iff]
        intro a ha
        simpa using hall a ha
      rw [govee_batch_all_filtered w cfg items hv hz]
      rfl
    · rw [govee_batch_invalid w cfg items hv]
      rfl

/-- Witness for C7: a valid one-item batch on an allowed device consumes
exactly one admission, and the all-filtered batch of the counterexample
consumes none. -/
theorem c7_one_admission_per_batch_witness :
    (govee_batch wTest cfg0
      [{ deviceId := "A", model := "M", cmd := .turn .on }]).2.count
        Eff.takeToken = 1 ∧
    (govee_batch wTest cfgA
      [{ deviceId := "B", model := "M", cmd := .turn .on }]).2.count
        Eff.takeToken = 0 :=
  ⟨(c7_one_admission_per_batch wTest cfg0 _).1 (by decide)
      ⟨{ deviceId := "A", model := "M", cmd := .turn .on }, by decide, by decide⟩,
   (c7_one_admission_per_batch wTest cfgA _).2 (by decide)⟩

/-- C3: `isAllowed` admits everything under an empty allowlist and exactly
the members otherwise; every single-device operation on a disallowed
device fails with the authorization error and an empty effect trace (no
admission, no network call); `list_devices` silently filters its result by
the allowlist; a batch whose items are all disallowed fails as a whole
with an empty trace; and a batch only ever issues control POSTs to
allowlist-admitted devices (disallowed items are silently dropped). -/
theorem c3_allowlist_enforcement (w : World) (cfg : Config)
    (deviceId model sceneName : String) (al : List String) :
    isAllowed [] deviceId = true ∧
    (isAllowed al deviceId = true ↔ al = [] ∨ deviceId ∈ al) ∧
    (isAllowed cfg.allowlist deviceId = false →
      govee_get_state w cfg deviceId model = (.error .deviceNotAllowed, []) ∧
      (∀ b : Bool, govee_set_power w cfg deviceId model b
        = (.error .deviceNotAllowed, [])) ∧
      (∀ p : ℚ, 0 ≤ p → p ≤ 100 →
        govee_set_brightness w cfg deviceId model p
          = (.error .deviceNotAllowed, [])) ∧
      (∀ r g b : ℚ, 0 ≤ r → r ≤ 255 → 0 ≤ g → g ≤ 255 → 0 ≤ b → b ≤ 255 →
        govee_set_color w cfg deviceId model r g b
          = (.error .deviceNotAllowed, [])) ∧
      (∀ k : ℚ, 1000 ≤ k → k ≤ 10000 →
        govee_set_color_temp w cfg deviceId model k
          = (.error .deviceNotAllowed, [])) ∧
      govee_set_scene w cfg deviceId model sceneName
        = (.error .deviceNotAllowed, [])) ∧
    (httpOk w.status = true →
      govee_list_devices w cfg
        = (.ok ((CloudAdapter.listDevices w).filter fun d =>
            isAllowed cfg.allowlist d.deviceId), [.takeToken, .devicesGet])) ∧
    (∀ items : List BatchItem, batchInputValid items = true →
      (∀ i ∈ items, isAllowed cfg.allowlist i.deviceId = false) →
      govee_batch w cfg items = (.error .noAllowedItems, [])) ∧
    (∀ (items : List BatchItem) (ref : DeviceRef) (cap : Capability),
      Eff.controlPost ref cap ∈ (govee_batch w cfg items).2 →
      isAllowed cfg.allowlist ref.deviceId = true) := by
  refine ⟨rfl, ?_, ?_, ?_, ?_, ?_⟩
  · simp [isAllowed]
  · intro hdis
    have hneg : ¬ isAllowed cfg.allowlist deviceId = true := by simp [hdis]
    refine ⟨?_, ?_, ?_, ?_, ?_, ?_⟩
    · unfold govee_get_state
      rw [if_pos hneg]
    · intro b
      unfold govee_set_power
      rw [if_pos hneg]
    · intro p h1 h2
      unfold govee_set_brightness
      rw [if_neg (fun hc => hc ⟨h1, h2⟩), if_pos hneg]
    · intro r g b h1 h2 h3 h4 h5 h6
      unfold govee_set_color
      rw [if_neg (fun hc => hc ⟨h1, h2, h3, h4, h5, h6⟩), if_pos hneg]
    · intro k h1 h2
      unfold govee_set_color_temp
      rw [if_neg (fun hc => hc ⟨h1, h2⟩), if_pos hneg]
    · unfold govee_set_scene
      rw [if_pos hneg]
  · intro hok
    unfold govee_list_devices
    rw [if_pos hok]
  · intro items hv hall
    apply govee_batch_all_filtered w cfg items hv
    rw [List.length_eq_zero, List.filter_eq_nil_iff]
    intro a ha
    simpa using hall a ha
  · intro items ref cap h
    exact govee_batch_trace_allowed w cfg items ref cap h

/-- Witness for C3: allowlist `{A}` rejects `get_state` on B before any
effect, filters B out of `list_devices`, and fails an all-B batch; the
empty allowlist admits B. -/
theorem c3_allowlist_enforcement_witness :
    isAllowed [] ("B") = true ∧
    govee_get_state wTest cfgA ("B") ("M")
      = (.error .deviceNotAllowed, []) ∧
    govee_list_devices wAB cfgA
      = (.ok [{ deviceId := "A", model := "H6104", deviceName := "Desk",
                capabilities := [] }],
         [.takeToken, .devicesGet]) ∧
    govee_batch wTest cfgA [{ deviceId := "B", model := "M", cmd := .turn .on }]
      = (.error .noAllowedItems, []) := by
  have h := c3_allowlist_enforcement wTest cfgA ("B") ("M") ("s") []
  have hAB := c3_allowlist_enforcement wAB cfgA ("B") ("M") ("s") []
  refine ⟨h.1, (h.2.2.1 (by decide)).1, ?_, ?_⟩
  · rw [hAB.2.2.2.1 (by decide)]
    rfl
  · exact h.2.2.2.2.1 [{ deviceId := "B", model := "M", cmd := .turn .on }]
      (by decide) (by decide)
